import Mathlib

/-!
Shallow embedding of `src/relay.c` from the SequentMicrosystems/4relplus-rpi
repository: the CLI for the Sequent Microsystems 4-Relay-Plus board.

The hardware bus (`i2cSetup`, `i2cMem8Read`, `i2cMem8Write` of comm.c) is an
external collaborator; it is modelled as a record of read/write operations
over an abstract bus-state type.  All relay.c logic (mask remapping, register
access, retry loops, board init, the self-test sweep) is translated from the
source.  Constants that live in the missing headers relay.h / thread.h
(RETRY_TIMES, register addresses, OK/FAIL/ERROR, channel counts) are
modelled from the spec.
-/

/-- Modelled from the spec (relay.h is not in src/): `#define RETRY_TIMES`,
the bound of the write-verify retry loops ("RetryBudget: fixed constant
(e.g., 10)"). -/
def RETRY_TIMES : Nat := 10

/-- Modelled from the spec (relay.h is not in src/): the board has 4 relay
channels. -/
def RELAY_CH_NR_MAX : Nat := 4

/-- Modelled from the spec (relay.h is not in src/): the board has 4 input
channels. -/
def IN_CH_NR_MAX : Nat := 4

/-- Modelled from the spec (relay.h is not in src/): channels are 1-based. -/
def CHANNEL_NR_MIN : Nat := 1

/-- Modelled from the spec (relay.h is not in src/): success return code. -/
def OK : Int := 0

/-- Modelled from the spec (relay.h is not in src/): bus-operation failure
return code. -/
def FAIL : Int := -1

/-- Modelled from the spec (relay.h is not in src/): validation/error return
code. -/
def ERROR : Int := -1

/-- C enum `OutStateEnumType` value OFF = 0. -/
def OFF : Nat := 0

/-- C enum `OutStateEnumType` value ON = 1. -/
def ON : Nat := 1

/-- C enum `OutStateEnumType` sentinel STATE_COUNT = 2 (used as the
"uninitialized read" value). -/
def STATE_COUNT : Nat := 2

/-- Modelled from the spec (relay.h is not in src/): the I/O expander's
input-port register address (the combined input/output status register). -/
def RELAY8_INPORT_REG_ADD : Nat := 0x00

/-- Modelled from the spec (relay.h is not in src/): the I/O expander's
output-port register address. -/
def RELAY8_OUTPORT_REG_ADD : Nat := 0x01

/-- Modelled from the spec (relay.h is not in src/): the I/O expander's
direction-configuration register address. -/
def RELAY8_CFG_REG_ADD : Nat := 0x03

/-- Modelled from the spec (relay.h is not in src/): the fixed base bus
address added to the transformed stack position. -/
def RELAY8_HW_I2C_BASE_ADD : Nat := 0x38

/-- relay.c line 27: `const u8 relayMaskRemap[...] = {0x80, 0x40, 0x20, 0x10}`. -/
def relayMaskRemap : List Nat := [0x80, 0x40, 0x20, 0x10]

/-- relay.c line 33: `const int relayChRemap[...] = {7, 6, 5, 4}`. -/
def relayChRemap : List Nat := [7, 6, 5, 4]

/-- relay.c line 40: `const u8 inMaskRemap[...] = {0x08, 0x04, 0x02, 0x01}`. -/
def inMaskRemap : List Nat := [0x08, 0x04, 0x02, 0x01]

/-- relay.c line 47: `const int inChRemap[...] = {3, 2, 1, 0}`. -/
def inChRemap : List Nat := [3, 2, 1, 0]

/-- relay.c `relayToIO` (lines 178-188): for each set bit i of the logical
relay mask, add `relayMaskRemap[i]` into the physical register value. -/
def relayToIO (relay : Nat) : Nat :=
  (List.range RELAY_CH_NR_MAX).foldl
    (fun val i => if relay &&& (1 <<< i) ≠ 0 then val + relayMaskRemap.getD i 0 else val) 0

/-- relay.c `IOToRelay` (lines 190-202): for each channel i, if the physical
bit `relayMaskRemap[i]` is set in the register value, add `1 << i` to the
logical mask. -/
def IOToRelay (io : Nat) : Nat :=
  (List.range RELAY_CH_NR_MAX).foldl
    (fun val i => if io &&& relayMaskRemap.getD i 0 ≠ 0 then val + (1 <<< i) else val) 0

/-- relay.c `IOToIn` (lines 204-216): for each input channel i, if the
physical bit `inMaskRemap[i]` is CLEAR in the register value (inputs are
active-low), add `1 << i` to the logical mask. -/
def IOToIn (io : Nat) : Nat :=
  (List.range IN_CH_NR_MAX).foldl
    (fun val i => if io &&& inMaskRemap.getD i 0 = 0 then val + (1 <<< i) else val) 0

/-- relay.c line 367 (doBoardInit) and line 695 (doList): the bit-permutation
part of the stack-position-to-address transform,
`st = (stack & 0x02) + (0x01 & (stack >> 2)) + (0x04 & (stack << 2))`. -/
def stackAddrSt (pos : Nat) : Nat :=
  (pos &&& 0x02) + (0x01 &&& (pos >>> 2)) + (0x04 &&& (pos <<< 2))

/-- relay.c line 368 (doBoardInit): `add = (st + RELAY8_HW_I2C_BASE_ADD) ^ 0x07`,
with the base address as an explicit parameter. -/
def stackPositionToAddress (base pos : Nat) : Nat :=
  (stackAddrSt pos + base) ^^^ 0x07

/-- A register write issued on the bus: (register address, value). -/
abbrev BusWrite := Nat × Nat

/-- The bus collaborator (comm.c's `i2cMem8Read` / `i2cMem8Write`), modelled
from the spec as an opaque synchronous collaborator:
`readRegister(handle, regAddr) -> bytes | fail`,
`writeRegister(handle, regAddr, bytes) -> ok | fail`, over an abstract
bus-state type `σ` (so transient failures and real hardware can both be
instantiated). -/
structure I2c (σ : Type) where
  readReg : σ → Nat → Option Nat × σ
  writeReg : σ → Nat → Nat → Bool × σ

/-- An oracle bus whose state is an operation counter: the k-th read returns
`rd k` (`none` = bus failure) and the k-th operation's write succeeds iff
`wr k`.  Used to model arbitrary sequences of transient bus results. -/
def oracleBus (rd : Nat → Option Nat) (wr : Nat → Bool) : I2c Nat :=
  { readReg := fun k _ => (rd k, k + 1),
    writeReg := fun k _ _ => (wr k, k + 1) }

/-- Modelled from the spec: the I/O expander hardware state.  The 8-bit
output register drives the high nibble (relay bits 7..4); the low nibble is
the 4 physical input lines.  Reading the input-port register returns the
driven output nibble together with the input-line levels; only the output
register is writable (spec 3: "inputs and outputs occupy distinct nibbles of
the same 8-bit register on read, but only the output nibble is writable"). -/
structure HwState where
  cfg : Nat
  outReg : Nat
  inLines : Nat
  deriving Repr, DecidableEq

/-- Modelled from the spec: a perfectly healthy bus attached to the expander
hardware of `HwState`: every operation succeeds, reads of the input-port
register return `(outReg AND 0xf0) OR (inLines AND 0x0f)`, reads of the
configuration register return `cfg`, writes store the byte. -/
def hwBus : I2c HwState :=
  { readReg := fun s reg =>
      (some (if reg = RELAY8_INPORT_REG_ADD then (s.outReg &&& 0xf0) ||| (s.inLines &&& 0x0f)
             else if reg = RELAY8_CFG_REG_ADD then s.cfg
             else 0), s),
    writeReg := fun s reg v =>
      (true,
       if reg = RELAY8_OUTPORT_REG_ADD then { s with outReg := v &&& 0xff }
       else if reg = RELAY8_CFG_REG_ADD then { s with cfg := v &&& 0xff }
       else s) }

/-- relay.c `relayChSet` (lines 218-249): validate the channel, read the
input-port register, set/clear the remapped bit for the channel
(the C `buff[0] &= ~(1 << r)` on a u8 is `&&& (0xff ^^^ (1 <<< r))`),
write the output-port register; any other state value is rejected with no
write.  Returns (result, bus state, writes issued). -/
def relayChSet (bus : I2c σ) (s : σ) (channel st8 : Nat) : Int × σ × List BusWrite :=
  if channel < CHANNEL_NR_MIN ∨ RELAY_CH_NR_MAX < channel then (ERROR, s, [])
  else
    match bus.readReg s RELAY8_INPORT_REG_ADD with
    | (none, s1) => (FAIL, s1, [])
    | (some b, s1) =>
      if st8 = OFF then
        let v := b &&& (0xff ^^^ (1 <<< relayChRemap.getD (channel - 1) 0))
        let w := bus.writeReg s1 RELAY8_OUTPORT_REG_ADD v
        ((if w.1 then OK else FAIL), w.2, [(RELAY8_OUTPORT_REG_ADD, v)])
      else if st8 = ON then
        let v := b ||| (1 <<< relayChRemap.getD (channel - 1) 0)
        let w := bus.writeReg s1 RELAY8_OUTPORT_REG_ADD v
        ((if w.1 then OK else FAIL), w.2, [(RELAY8_OUTPORT_REG_ADD, v)])
      else (ERROR, s1, [])

/-- relay.c `relayChGet` (lines 251-280): validate the channel, read the
input-port register, test the remapped bit; yields ON/OFF through the out
parameter (here the `Option Nat` component, `none` when the call failed). -/
def relayChGet (bus : I2c σ) (s : σ) (channel : Nat) : Int × σ × Option Nat :=
  if channel < CHANNEL_NR_MIN ∨ RELAY_CH_NR_MAX < channel then (ERROR, s, none)
  else
    match bus.readReg s RELAY8_INPORT_REG_ADD with
    | (none, s1) => (ERROR, s1, none)
    | (some b, s1) =>
      if b &&& (1 <<< relayChRemap.getD (channel - 1) 0) ≠ 0 then (OK, s1, some ON)
      else (OK, s1, some OFF)

/-- relay.c `relaySet` (lines 282-289): write `relayToIO(0xff & val)` to the
output-port register in one shot. -/
def relaySet (bus : I2c σ) (s : σ) (val : Nat) : Int × σ × List BusWrite :=
  let v := relayToIO (0xff &&& val)
  let w := bus.writeReg s RELAY8_OUTPORT_REG_ADD v
  ((if w.1 then OK else FAIL), w.2, [(RELAY8_OUTPORT_REG_ADD, v)])

/-- relay.c `relayGet` (lines 291-305): read the input-port register and
return `IOToRelay` of it (`none` when the bus read failed). -/
def relayGet (bus : I2c σ) (s : σ) : Int × σ × Option Nat :=
  match bus.readReg s RELAY8_INPORT_REG_ADD with
  | (none, s1) => (ERROR, s1, none)
  | (some b, s1) => (OK, s1, some (IOToRelay b))

/-- relay.c `doBoardInit` (lines 355-396): validate the stack position,
compute the bus address, open the bus (`setup` models `i2cSetup`, returning
the device handle or -1), read the configuration register; if it does not
hold the sentinel 0x0f, write 0x0f to the configuration register and 0 to
the output register (each write checked); return the handle and the list of
register writes issued. -/
def doBoardInit (bus : I2c σ) (setup : Nat → Int) (s : σ) (stack : Int) :
    Int × σ × List BusWrite :=
  if stack < 0 ∨ 7 < stack then (ERROR, s, [])
  else
    let add := stackPositionToAddress RELAY8_HW_I2C_BASE_ADD stack.toNat
    let dev := setup add
    if dev = -1 then (ERROR, s, [])
    else
      match bus.readReg s RELAY8_CFG_REG_ADD with
      | (none, s1) => (ERROR, s1, [])
      | (some b, s1) =>
        if b ≠ 0x0f then
          let w1 := bus.writeReg s1 RELAY8_CFG_REG_ADD 0x0f
          if ¬ w1.1 then (ERROR, w1.2, [(RELAY8_CFG_REG_ADD, 0x0f)])
          else
            let w2 := bus.writeReg w1.2 RELAY8_OUTPORT_REG_ADD 0
            if ¬ w2.1 then
              (ERROR, w2.2, [(RELAY8_CFG_REG_ADD, 0x0f), (RELAY8_OUTPORT_REG_ADD, 0)])
            else (dev, w2.2, [(RELAY8_CFG_REG_ADD, 0x0f), (RELAY8_OUTPORT_REG_ADD, 0)])
        else (dev, s1, [])

/-- Outcome of the single-channel write-verify loop of `doRelayWrite`
(relay.c lines 468-494).  `writeFail` = "Fail to write relay" + exit(1)
inside the loop; `readFail` = "Fail to read relay" + exit(1);
`retryExhausted` = the post-loop `if (retry == 0)` failure path;
`ok` = the loop fell through with retry nonzero. -/
inductive WriteOutcome
  | ok
  | writeFail
  | readFail
  | retryExhausted
  deriving Repr, DecidableEq

/-- relay.c doRelayWrite, single-channel branch (lines 468-494):

    retry = RETRY_TIMES;
    while ((retry > 0) && (stateR != state)) {
      if (OK != relayChSet(dev, pin, state)) exit writeFail;
      if (OK != relayChGet(dev, pin, &stateR)) exit readFail;
      retry--;
    }
    if (retry == 0) exit retryExhausted;  else success

Arguments: bus, channel `pin`, intended `st8`, bus state, current `stateR`
(initially STATE_COUNT), completed write+read attempts so far, remaining
`retry`.  Returns (final bus state, outcome, completed write+read attempts). -/
def chWriteLoop (bus : I2c σ) (pin st8 : Nat) :
    σ → Nat → Nat → Nat → σ × WriteOutcome × Nat
  | s, stateR, attempts, retry =>
    if stateR = st8 then
      (s, (if retry = 0 then .retryExhausted else .ok), attempts)
    else
      match retry with
      | 0 => (s, .retryExhausted, attempts)
      | r + 1 =>
        match relayChSet bus s pin st8 with
        | (rw, s1, _) =>
          if rw ≠ OK then (s1, .writeFail, attempts)
          else
            match relayChGet bus s1 pin with
            | (rg, s2, stR) =>
              if rg ≠ OK then (s2, .readFail, attempts)
              else chWriteLoop bus pin st8 s2 (stR.getD STATE_COUNT) (attempts + 1) r

/-- Result of running the whole-register write loop of `doRelayWrite`
(relay.c lines 505-525) for a bounded number of iterations:
`running` = the loop guard still holds after the allotted iterations. -/
inductive RegRunRes (σ : Type)
  | ok (s : σ)
  | exhausted (s : σ)
  | writeFail (s : σ)
  | readFail (s : σ)
  | running (s : σ) (retry : Nat) (valR : Int)
  deriving Repr, DecidableEq

/-- relay.c doRelayWrite, whole-register branch (lines 505-525):

    retry = RETRY_TIMES;  valR = -1;
    while ((retry > 0) && (valR != val)) {
      if (OK != relaySet(dev, val)) exit writeFail;
      if (OK != relayGet(dev, &valR)) exit readFail;
    }                                  // note: retry is never decremented
    if (retry == 0) exit exhausted;  else success

`fuel` bounds how many iterations we unfold; `running` reports a loop that
is still going (guard true) when the fuel is spent. -/
def regWriteLoopRun (bus : I2c σ) (val : Nat) :
    Nat → σ → Nat → Int → RegRunRes σ
  | 0, s, retry, valR =>
    if 0 < retry ∧ valR ≠ (val : Int) then .running s retry valR
    else if retry = 0 then .exhausted s else .ok s
  | fuel + 1, s, retry, valR =>
    if 0 < retry ∧ valR ≠ (val : Int) then
      match relaySet bus s val with
      | (rw, s1, _) =>
        if rw ≠ OK then .writeFail s1
        else
          match relayGet bus s1 with
          | (rg, s2, v) =>
            if rg ≠ OK then .readFail s2
            else regWriteLoopRun bus val fuel s2 retry ((v.getD 0 : Nat) : Int)
    else if retry = 0 then .exhausted s else .ok s

/-- Whether the whole-register write loop has terminated (any outcome other
than `running`). -/
def RegRunRes.isTerminated : RegRunRes σ → Bool
  | .running _ _ _ => false
  | _ => true

/-- Result of one per-channel step of the self-test sweep (doTest, relay.c
lines 764-788 and 796-818): `failExit` is the `if (retry == 0)` path that
closes the result file and calls exit(1); `outOfFuel` marks an inner retry
loop still running after the allotted iterations. -/
inductive StepRes (σ : Type)
  | ok (s : σ) (writes : List BusWrite)
  | failExit (s : σ) (writes : List BusWrite)
  | outOfFuel (s : σ) (writes : List BusWrite)
  deriving Repr, DecidableEq

/-- doTest's inner ON retry loop for one channel (relay.c lines 764-788):

    valR = 0;  relVal = 1 << (ch-1);  retry = RETRY_TIMES;
    while ((retry > 0) && ((valR & relVal) == 0)) {
      if (OK != relayChSet(dev, ch, ON)) { retry = 0; break; }
      if (OK != relayGet(dev, &valR)) { retry = 0; }
    }                                  // note: retry is never decremented
    if (retry == 0) exit(1);           // the failExit path

A failed set breaks straight to the failure exit; a failed get clears retry
and the re-checked guard then exits to the same path. -/
def testOnLoop (bus : I2c σ) (ch : Nat) :
    Nat → σ → Nat → Nat → List BusWrite → StepRes σ
  | 0, s, retry, valR, w =>
    if 0 < retry ∧ valR &&& (1 <<< (ch - 1)) = 0 then .outOfFuel s w
    else if retry = 0 then .failExit s w else .ok s w
  | fuel + 1, s, retry, valR, w =>
    if 0 < retry ∧ valR &&& (1 <<< (ch - 1)) = 0 then
      match relayChSet bus s ch ON with
      | (rw, s1, w1) =>
        if rw ≠ OK then .failExit s1 (w ++ w1)
        else
          match relayGet bus s1 with
          | (rg, s2, v) =>
            if rg ≠ OK then .failExit s2 (w ++ w1)
            else testOnLoop bus ch fuel s2 retry (v.getD 0) (w ++ w1)
    else if retry = 0 then .failExit s w else .ok s w

/-- doTest's inner OFF retry loop for one channel (relay.c lines 796-818):

    valR = 0xff;  relVal = 1 << (ch-1);  retry = RETRY_TIMES;
    while ((retry > 0) && ((valR & relVal) != 0)) {
      if (OK != relayChSet(dev, ch, OFF)) { retry = 0; }   // no break
      if (OK != relayGet(dev, &valR)) { retry = 0; }
    }                                  // note: retry is never decremented
    if (retry == 0) exit(1);           // the failExit path

Unlike the ON loop, a failed set does not break, so the get still runs;
either failure clears retry and the re-checked guard exits to failExit. -/
def testOffLoop (bus : I2c σ) (ch : Nat) :
    Nat → σ → Nat → Nat → List BusWrite → StepRes σ
  | 0, s, retry, valR, w =>
    if 0 < retry ∧ valR &&& (1 <<< (ch - 1)) ≠ 0 then .outOfFuel s w
    else if retry = 0 then .failExit s w else .ok s w
  | fuel + 1, s, retry, valR, w =>
    if 0 < retry ∧ valR &&& (1 <<< (ch - 1)) ≠ 0 then
      match relayChSet bus s ch OFF with
      | (rw, s1, w1) =>
        match relayGet bus s1 with
        | (rg, s2, v) =>
          let retry2 := if rw ≠ OK ∨ rg ≠ OK then 0 else retry
          let valR2 := if rg ≠ OK then valR else v.getD 0
          testOffLoop bus ch fuel s2 retry2 valR2 (w ++ w1)
    else if retry = 0 then .failExit s w else .ok s w

/-- Result of one for-loop phase of the self-test sweep over the channel
order: `cont` carries the bus state, the next thread-poll index and the
value `relayResult` holds when the phase is left. -/
inductive SweepRes (σ : Type)
  | cont (s : σ) (t : Nat) (relayResult : Int) (w : List BusWrite)
  | failExit (s : σ) (w : List BusWrite)
  | outOfFuel (s : σ) (w : List BusWrite)
  deriving Repr, DecidableEq

/-- One for-loop of doTest over the relay order (relay.c lines 757-789 for
the ON phase, 790-819 for the OFF phase): each iteration first polls
`checkThreadResult()` (the oracle `thr` at poll index `t`); a nonzero result
breaks out of the for-loop; otherwise the per-channel retry loop runs. -/
def testPhaseRun (bus : I2c σ) (thr : Nat → Int) (fuelInner : Nat) (off : Bool) :
    List Nat → σ → Nat → List BusWrite → SweepRes σ
  | [], s, t, w => .cont s t 0 w
  | ch :: rest, s, t, w =>
    let r := thr t
    if r ≠ 0 then .cont s (t + 1) r w
    else
      match (if off then testOffLoop bus ch fuelInner s RETRY_TIMES 0xff []
             else testOnLoop bus ch fuelInner s RETRY_TIMES 0 []) with
      | .ok s1 w1 => testPhaseRun bus thr fuelInner off rest s1 (t + 1) (w ++ w1)
      | .failExit s1 w1 => .failExit s1 (w ++ w1)
      | .outOfFuel s1 w1 => .outOfFuel s1 (w ++ w1)

/-- Result of the relay-test portion of doTest: `finished` is the normal
terminal path (the code after the outer while loop, including its final
`relaySet(dev, 0)`); `failExit` is a sweep retry-failure exit(1);
`outOfFuel` bounds the unboundedly-running loops. -/
inductive TestRes (σ : Type)
  | finished (s : σ) (relayResult : Int) (w : List BusWrite)
  | failExit (s : σ) (w : List BusWrite)
  | outOfFuel (s : σ) (w : List BusWrite)
  deriving Repr, DecidableEq

/-- relay.c doTest, relay-test portion (lines 751-848): the outer
`while (relayResult == 0)` loop runs the ON phase then the OFF phase over
the channel order {1,2,3,4}; `relayResult` ends the outer loop when the
poll made inside the OFF phase left it nonzero (an ON-phase break only
skips to the OFF phase, whose own first poll overwrites `relayResult`).
On the terminal path the PASS/FAIL line is emitted, the result file closed,
and `relaySet(dev, 0)` issued (lines 822-848).  `fuelOuter` bounds the
outer while loop. -/
def doTestRelayPhase (bus : I2c σ) (thr : Nat → Int) (fuelInner : Nat) :
    Nat → σ → Nat → List BusWrite → TestRes σ
  | 0, s, _, w => .outOfFuel s w
  | fo + 1, s, t, w =>
    match testPhaseRun bus thr fuelInner false [1, 2, 3, 4] s t w with
    | .failExit s1 w1 => .failExit s1 w1
    | .outOfFuel s1 w1 => .outOfFuel s1 w1
    | .cont s1 t1 _ w1 =>
      match testPhaseRun bus thr fuelInner true [1, 2, 3, 4] s1 t1 w1 with
      | .failExit s2 w2 => .failExit s2 w2
      | .outOfFuel s2 w2 => .outOfFuel s2 w2
      | .cont s2 t2 r2 w2 =>
        if r2 ≠ 0 then
          .finished (relaySet bus s2 0).2.1 r2 (w2 ++ (relaySet bus s2 0).2.2)
        else doTestRelayPhase bus thr fuelInner fo s2 t2 w2

/-- The relay state `relayChGet` derives from the byte the bus returned
(relay.c lines 271-278): ON iff the channel's remapped bit is set. -/
def chReadState (v : Nat → Nat) (pin i : Nat) : Nat :=
  if v i &&& (1 <<< relayChRemap.getD (pin - 1) 0) ≠ 0 then ON else OFF

/-- A write oracle on which every bus write succeeds. -/
def allWritesOk : Nat → Bool := fun _ => true

/-- A read oracle returning the byte 0 on every bus read (readbacks never
show a channel ON). -/
def zeroReadback : Nat → Nat := fun _ => 0

/-- Read oracle: the readback of the 2nd write+read attempt of channel 1
(bus operation index 5) has the channel-1 bit (0x80) set, everything else
reads 0. -/
def c3WitReadback : Nat → Nat := fun i => if i = 5 then 0x80 else 0

/-- Read oracle: the readback of the 10th (= RETRY_TIMES-th) write+read
attempt of channel 1 (bus operation index 29) has the channel-1 bit (0x80)
set, everything else reads 0. -/
def c3CexReadback : Nat → Nat := fun i => if i = 29 then 0x80 else 0

/-- A read oracle on which every bus read fails. -/
def c2FailRead : Nat → Option Nat := fun _ => none

/-- A thread oracle on which `checkThreadResult()` always reports 0
(no key pressed yet). -/
def c2NoKey : Nat → Int := fun _ => 0

/-- A thread oracle on which `checkThreadResult()` reports 1 from the first
poll (a key was pressed immediately). -/
def c2KeyPressed : Nat → Int := fun _ => 1

set_option maxRecDepth 10000

/-- relayChSet against the healthy hardware bus, intended state ON: returns
OK, stores the read byte with the channel's remapped bit set into the output
register, and issues exactly that output-register write. -/
theorem relayChSet_hwBus_on (s : HwState) (c : Nat) (h1 : 1 ≤ c) (h4 : c ≤ 4) :
    relayChSet hwBus s c ON =
      (OK,
       { s with outReg :=
          (((s.outReg &&& 0xf0) ||| (s.inLines &&& 0x0f)) ||| (1 <<< relayChRemap.getD (c - 1) 0)) &&& 0xff },
       [(RELAY8_OUTPORT_REG_ADD,
         ((s.outReg &&& 0xf0) ||| (s.inLines &&& 0x0f)) ||| (1 <<< relayChRemap.getD (c - 1) 0))]) := by
  rw [relayChSet]
  rw [if_neg (by simp [CHANNEL_NR_MIN, RELAY_CH_NR_MAX]; omega)]
  simp [hwBus, ON, OFF, RELAY8_INPORT_REG_ADD, RELAY8_CFG_REG_ADD, RELAY8_OUTPORT_REG_ADD]

/-- relayChGet against the healthy hardware bus: returns OK, leaves the
state alone and reports the remapped bit of the combined register byte. -/
theorem relayChGet_hwBus (s : HwState) (c : Nat) (h1 : 1 ≤ c) (h4 : c ≤ 4) :
    relayChGet hwBus s c =
      (OK, s,
       some (if ((s.outReg &&& 0xf0) ||| (s.inLines &&& 0x0f)) &&& (1 <<< relayChRemap.getD (c - 1) 0) ≠ 0
             then ON else OFF)) := by
  rw [relayChGet]
  rw [if_neg (by simp [CHANNEL_NR_MIN, RELAY_CH_NR_MAX]; omega)]
  simp [hwBus, RELAY8_INPORT_REG_ADD, RELAY8_CFG_REG_ADD]
  split <;> simp_all

/-- relayGet against the healthy hardware bus: returns `IOToRelay` of the
combined register byte. -/
theorem relayGet_hwBus (s : HwState) :
    relayGet hwBus s = (OK, s, some (IOToRelay ((s.outReg &&& 0xf0) ||| (s.inLines &&& 0x0f)))) := by
  rw [relayGet]
  simp [hwBus, RELAY8_INPORT_REG_ADD, RELAY8_CFG_REG_ADD]

/-- The low nibble of the combined register byte is the input-lines nibble. -/
theorem low_nibble_of_read (o il : Nat) :
    ((o &&& 0xf0) ||| (il &&& 0x0f)) &&& 0x0f = il &&& 0x0f := by
  rw [Nat.and_distrib_right, Nat.and_assoc, Nat.and_assoc,
      (by decide : (0xf0 &&& 0x0f : Nat) = 0), (by decide : (0x0f &&& 0x0f : Nat) = 0x0f),
      Nat.and_zero, Nat.zero_or]

/-- The combined register byte is a byte. -/
theorem read_byte_lt (o il : Nat) : ((o &&& 0xf0) ||| (il &&& 0x0f)) < 256 := by
  have h1 : o &&& 0xf0 < 256 := Nat.lt_of_le_of_lt Nat.and_le_right (by norm_num)
  have h2 : il &&& 0x0f < 256 := Nat.lt_of_le_of_lt Nat.and_le_right (by norm_num)
  exact Nat.or_lt_two_pow (n := 8) h1 h2

/-- Byte-level core of the read-modify-write isolation: setting a channel's
remapped (high-nibble) bit in a register byte makes the bit read back set,
and leaves every other channel's logical bit of `IOToRelay` unchanged. -/
theorem c7_bytes : ∀ b, b < 256 → ∀ cm1, cm1 < 4 → ∀ j, j < 4 →
    ((((b ||| (1 <<< relayChRemap.getD cm1 0)) &&& 0xff) &&& 0xf0) ||| (b &&& 0x0f))
        &&& (1 <<< relayChRemap.getD cm1 0) ≠ 0
    ∧ (j ≠ cm1 →
        (IOToRelay ((((b ||| (1 <<< relayChRemap.getD cm1 0)) &&& 0xff) &&& 0xf0) ||| (b &&& 0x0f))).testBit j
          = (IOToRelay b).testBit j) := by decide

/-- relayChGet against an always-succeeding read oracle: one bus read,
reporting `chReadState` of the returned byte. -/
theorem relayChGet_oracle (v : Nat → Nat) (wr : Nat → Bool) (k pin : Nat)
    (hp1 : 1 ≤ pin) (hp4 : pin ≤ 4) :
    relayChGet (oracleBus (fun i => some (v i)) wr) k pin
      = (OK, k + 1, some (chReadState v pin k)) := by
  rw [relayChGet, if_neg (by simp [CHANNEL_NR_MIN, RELAY_CH_NR_MAX]; omega)]
  simp only [oracleBus, chReadState]
  split <;> simp_all

/-- relayChSet against an always-succeeding read oracle: a read then an
output-register write whose success the write oracle decides. -/
theorem relayChSet_oracle (v : Nat → Nat) (wr : Nat → Bool) (k pin st8 : Nat)
    (hp1 : 1 ≤ pin) (hp4 : pin ≤ 4) (hst : st8 < 2) :
    relayChSet (oracleBus (fun i => some (v i)) wr) k pin st8
      = ((if wr (k + 1) then OK else FAIL), k + 2,
         [(RELAY8_OUTPORT_REG_ADD,
           if st8 = OFF then v k &&& (0xff ^^^ (1 <<< relayChRemap.getD (pin - 1) 0))
           else v k ||| (1 <<< relayChRemap.getD (pin - 1) 0))]) := by
  rw [relayChSet, if_neg (by simp [CHANNEL_NR_MIN, RELAY_CH_NR_MAX]; omega)]
  interval_cases st8 <;> simp [oracleBus, OFF, ON]

/-- The single-channel write-verify loop with all bus calls succeeding and
every readback missing the intended state runs its budget down to zero and
exits on the `retry == 0` failure path, one write+read pair per budget unit. -/
theorem chWriteLoop_miss_exhausts (v : Nat → Nat) (wr : Nat → Bool) (pin st8 : Nat)
    (hp1 : 1 ≤ pin) (hp4 : pin ≤ 4) (hst : st8 < 2) (hw : ∀ i, wr i = true) :
    ∀ (retry k0 attempts stateR : Nat), stateR ≠ st8 →
      (∀ i, i < retry → chReadState v pin (k0 + 3 * i + 2) ≠ st8) →
      chWriteLoop (oracleBus (fun i => some (v i)) wr) pin st8 k0 stateR attempts retry
        = (k0 + 3 * retry, WriteOutcome.retryExhausted, attempts + retry) := by
  intro retry
  induction retry with
  | zero =>
    intro k0 attempts stateR hne hmiss
    rw [chWriteLoop, if_neg hne]
    simp
  | succ r ih =>
    intro k0 attempts stateR hne hmiss
    rw [chWriteLoop, if_neg hne]
    simp only [relayChSet_oracle v wr k0 pin st8 hp1 hp4 hst, hw (k0 + 1), if_true]
    have hOK : ¬ (OK ≠ OK) := by simp
    rw [if_neg hOK]
    rw [relayChGet_oracle v wr (k0 + 2) pin hp1 hp4]
    rw [if_neg hOK]
    simp only [Option.getD_some]
    have hne2 : chReadState v pin (k0 + 2) ≠ st8 := by
      have := hmiss 0 (by omega)
      simpa using this
    have hmiss2 : ∀ i, i < r → chReadState v pin ((k0 + 3) + 3 * i + 2) ≠ st8 := by
      intro i hi
      have h := hmiss (i + 1) (by omega)
      have he : k0 + 3 * (i + 1) + 2 = k0 + 3 + 3 * i + 2 := by ring
      rwa [he] at h
    rw [ih (k0 + 3) (attempts + 1) (chReadState v pin (k0 + 2)) hne2 hmiss2]
    simp only [Prod.mk.injEq]
    refine ⟨by omega, trivial, by omega⟩

/-- The single-channel write-verify loop with all bus calls succeeding, the
first n readbacks missing and the (n+1)-th readback matching strictly before
the budget runs out, exits successfully after exactly n+1 write+read pairs. -/
theorem chWriteLoop_match_ok (v : Nat → Nat) (wr : Nat → Bool) (pin st8 : Nat)
    (hp1 : 1 ≤ pin) (hp4 : pin ≤ 4) (hst : st8 < 2) (hw : ∀ i, wr i = true) :
    ∀ (n retry k0 attempts stateR : Nat), stateR ≠ st8 →
      n + 1 < retry →
      (∀ i, i < n → chReadState v pin (k0 + 3 * i + 2) ≠ st8) →
      chReadState v pin (k0 + 3 * n + 2) = st8 →
      chWriteLoop (oracleBus (fun i => some (v i)) wr) pin st8 k0 stateR attempts retry
        = (k0 + 3 * (n + 1), WriteOutcome.ok, attempts + (n + 1)) := by
  intro n
  induction n with
  | zero =>
    intro retry k0 attempts stateR hne hlt hmiss hmatch
    obtain ⟨r, rfl⟩ : ∃ r, retry = r + 1 := ⟨retry - 1, by omega⟩
    rw [chWriteLoop, if_neg hne]
    simp only [relayChSet_oracle v wr k0 pin st8 hp1 hp4 hst, hw (k0 + 1), if_true]
    have hOK : ¬ (OK ≠ OK) := by simp
    rw [if_neg hOK]
    rw [relayChGet_oracle v wr (k0 + 2) pin hp1 hp4]
    rw [if_neg hOK]
    simp only [Option.getD_some]
    have hm : chReadState v pin (k0 + 2) = st8 := by simpa using hmatch
    rw [chWriteLoop.eq_def]
    dsimp only
    rw [if_pos hm, if_neg (by omega : ¬ r = 0)]
  | succ m ih =>
    intro retry k0 attempts stateR hne hlt hmiss hmatch
    obtain ⟨r, rfl⟩ : ∃ r, retry = r + 1 := ⟨retry - 1, by omega⟩
    rw [chWriteLoop, if_neg hne]
    simp only [relayChSet_oracle v wr k0 pin st8 hp1 hp4 hst, hw (k0 + 1), if_true]
    have hOK : ¬ (OK ≠ OK) := by simp
    rw [if_neg hOK]
    rw [relayChGet_oracle v wr (k0 + 2) pin hp1 hp4]
    rw [if_neg hOK]
    simp only [Option.getD_some]
    have hne2 : chReadState v pin (k0 + 2) ≠ st8 := by
      have := hmiss 0 (by omega)
      simpa using this
    have hmiss2 : ∀ i, i < m → chReadState v pin ((k0 + 3) + 3 * i + 2) ≠ st8 := by
      intro i hi
      have h := hmiss (i + 1) (by omega)
      have he : k0 + 3 * (i + 1) + 2 = k0 + 3 + 3 * i + 2 := by ring
      rwa [he] at h
    have hmatch2 : chReadState v pin ((k0 + 3) + 3 * m + 2) = st8 := by
      have he : k0 + 3 * (m + 1) + 2 = k0 + 3 + 3 * m + 2 := by ring
      rwa [he] at hmatch
    rw [ih r (k0 + 3) (attempts + 1) (chReadState v pin (k0 + 2)) hne2 (by omega) hmiss2 hmatch2]
    simp only [Prod.mk.injEq]
    refine ⟨by omega, trivial, by omega⟩

/-- The bit-permutation of the stack-position transform is injective on [0,8). -/
theorem stackAddrSt_inj : ∀ p, p < 8 → ∀ q, q < 8 → stackAddrSt p = stackAddrSt q → p = q := by
  decide

/-- The whole-register write loop never decrements its retry counter, so on
a healthy bus with a value whose readback can never match (val = 16 maps to
register bits outside the 4-channel mask) the loop guard stays true after
any number of iterations. -/
theorem regWriteLoop_never_ends (fuel : Nat) :
    ∀ (valR : Int), valR ≠ ((16 : Nat) : Int) →
    (regWriteLoopRun hwBus 16 fuel ⟨0x0f, 0, 0⟩ RETRY_TIMES valR).isTerminated = false := by
  induction fuel with
  | zero =>
    intro valR hne
    rw [regWriteLoopRun, if_pos ⟨by decide, hne⟩]
    rfl
  | succ n ih =>
    intro valR hne
    rw [regWriteLoopRun, if_pos ⟨by decide, hne⟩]
    exact ih _ (by decide)

/-- The writes list of a whole-register write of 0 is the single all-off
output-register write, whatever the bus does. -/
theorem relaySet_zero_writes {σ : Type} (bus : I2c σ) (s : σ) :
    (relaySet bus s 0).2.2 = [(RELAY8_OUTPORT_REG_ADD, 0)] := rfl

/-- C1: the claim says the whole-register write-verify loop performs at most
RetryBudget write+read attempts before success or VerifyExhausted.  The code
(relay.c lines 505-525) never decrements `retry`, so on a healthy bus with
register value 16 (whose 4-bit readback can never equal it) the loop guard
still holds after ANY number of iterations: the loop does not terminate, let
alone within RETRY_TIMES attempts.  This contradicts the loop's own dead
`if (retry == 0)` exit and the parallel single-channel loop, which does
decrement: a missing `retry--`. -/
theorem claim_C1 : ∀ fuel : Nat,
    (regWriteLoopRun hwBus 16 fuel ⟨0x0f, 0, 0⟩ RETRY_TIMES (-1)).isTerminated = false :=
  fun fuel => regWriteLoop_never_ends fuel (-1) (by decide)

/-- C2 (amended): relays are guaranteed to be forced OFF only on the normal
terminal path of the self-test: whenever the relay-test portion of doTest
reaches the `finished` outcome (the code after the outer while loop), the
last bus write issued is the whole-register all-off write `(OUTPORT, 0)`
from `relaySet(dev, 0)` — for every bus, thread oracle and fuel.  The sweep
write-verify failure exits do NOT issue it (see the counterexample). -/
theorem claim_C2 {σ : Type} (bus : I2c σ) (thr : Nat → Int) (fuelInner : Nat) :
    ∀ (fuelOuter : Nat) (s : σ) (t : Nat) (w : List BusWrite) (s3 : σ) (r : Int)
      (w3 : List BusWrite),
      doTestRelayPhase bus thr fuelInner fuelOuter s t w = .finished s3 r w3 →
      w3.getLast? = some (RELAY8_OUTPORT_REG_ADD, 0) := by
  intro fuelOuter
  induction fuelOuter with
  | zero =>
    intro s t w s3 r w3 h
    rw [doTestRelayPhase] at h
    exact absurd h (by simp)
  | succ fo ih =>
    intro s t w s3 r w3 h
    rw [doTestRelayPhase] at h
    split at h
    · exact absurd h (by simp)
    · exact absurd h (by simp)
    · split at h
      · exact absurd h (by simp)
      · exact absurd h (by simp)
      · split at h
        · injection h with hs hr2 hw
          rw [← hw, relaySet_zero_writes]
          exact List.getLast?_concat _
        · exact ih _ _ _ _ _ _ h

/-- C2 witness: a run in which the watcher reports a keypress at the first
poll reaches `finished` with exactly the all-off write as its last (and
only) bus write. -/
theorem claim_C2_witness :
    ([(RELAY8_OUTPORT_REG_ADD, 0)] : List BusWrite).getLast?
      = some (RELAY8_OUTPORT_REG_ADD, 0) :=
  claim_C2 hwBus c2KeyPressed 12 1 ⟨0x0f, 0, 0⟩ 0 [] ⟨0x0f, 0, 0⟩ 1
    [(RELAY8_OUTPORT_REG_ADD, 0)] (by decide)

/-- C2 counterexample: with a bus whose reads fail, the self-test sweep
reaches the write-verify exhaustion exit path (`retry == 0`, exit(1)) having
issued NO register writes at all — in particular no whole-register write of
0 — refuting "all relays are forced OFF before the process exits" for that
exit path. -/
theorem claim_C2_counterexample :
    doTestRelayPhase (oracleBus c2FailRead allWritesOk) c2NoKey 12 3 0 0 []
      = TestRes.failExit 1 [] ∧
    (RELAY8_OUTPORT_REG_ADD, 0) ∉ ([] : List BusWrite) := by decide

/-- C3 (amended): in the single-channel write-verify loop, if every write
and read succeeds, the first k-1 readbacks miss and the k-th readback
matches the intended state with 1 ≤ k ≤ RetryBudget - 1, the operation
returns success after exactly k write+read attempts.  (For k = RetryBudget
the code reports a verify failure despite the matching readback — see the
counterexample.) -/
theorem claim_C3 (v : Nat → Nat) (wr : Nat → Bool) (pin st8 k : Nat)
    (hp1 : 1 ≤ pin) (hp4 : pin ≤ 4) (hst : st8 < STATE_COUNT) (hw : ∀ i, wr i = true)
    (hk1 : 1 ≤ k) (hkR : k < RETRY_TIMES)
    (hmiss : ∀ i, i + 1 < k → chReadState v pin (3 * i + 2) ≠ st8)
    (hmatch : chReadState v pin (3 * (k - 1) + 2) = st8) :
    chWriteLoop (oracleBus (fun i => some (v i)) wr) pin st8 0 STATE_COUNT 0 RETRY_TIMES
      = (3 * k, WriteOutcome.ok, k) := by
  have hst2 : st8 < 2 := by simpa [STATE_COUNT] using hst
  have h := chWriteLoop_match_ok v wr pin st8 hp1 hp4 hst2 hw (k - 1) RETRY_TIMES 0 0 STATE_COUNT
    (by simp only [STATE_COUNT]; omega)
    (by omega)
    (by intro i hi; simpa using hmiss i (by omega))
    (by simpa using hmatch)
  rw [h]
  simp only [Prod.mk.injEq]
  refine ⟨by omega, trivial, by omega⟩

/-- C3 witness: channel 1, intended state ON, all bus calls succeed, the
2nd readback matches: the loop returns success after 2 attempts (6 bus
operations). -/
theorem claim_C3_witness :
    chWriteLoop (oracleBus (fun i => some (c3WitReadback i)) allWritesOk) 1 ON 0 STATE_COUNT 0
      RETRY_TIMES = (6, WriteOutcome.ok, 2) :=
  claim_C3 c3WitReadback allWritesOk 1 ON 2 (by decide) (by decide) (by decide) (fun _ => rfl)
    (by decide) (by decide)
    (by intro i hi; have h0 : i = 0 := by omega
        subst h0; decide)
    (by decide)

/-- C3 counterexample: every write and read succeeds and the k-th readback
matches the intended state for k = RETRY_TIMES (the readback of the 10th
attempt, bus operation 29, shows channel 1 ON), yet the loop exits on the
`retry == 0` failure path instead of returning success — refuting
"regardless of whether k equals RetryBudget". -/
theorem claim_C3_counterexample :
    chReadState c3CexReadback 1 (3 * (RETRY_TIMES - 1) + 2) = ON ∧
    chWriteLoop (oracleBus (fun i => some (c3CexReadback i)) allWritesOk) 1 ON 0 STATE_COUNT 0
      RETRY_TIMES = (30, WriteOutcome.retryExhausted, RETRY_TIMES) := by decide

/-- C4: in the single-channel write-verify loop, if every write and read
succeeds but no readback ever matches the intended state, the loop fails on
the verify-exhausted path (`retry == 0` after the loop) — not the
write-failure path — after exactly RETRY_TIMES write+read attempts. -/
theorem claim_C4 (v : Nat → Nat) (wr : Nat → Bool) (pin st8 : Nat)
    (hp1 : 1 ≤ pin) (hp4 : pin ≤ 4) (hst : st8 < STATE_COUNT) (hw : ∀ i, wr i = true)
    (hmiss : ∀ i, i < RETRY_TIMES → chReadState v pin (3 * i + 2) ≠ st8) :
    chWriteLoop (oracleBus (fun i => some (v i)) wr) pin st8 0 STATE_COUNT 0 RETRY_TIMES
      = (3 * RETRY_TIMES, WriteOutcome.retryExhausted, RETRY_TIMES) := by
  have hst2 : st8 < 2 := by simpa [STATE_COUNT] using hst
  have h := chWriteLoop_miss_exhausts v wr pin st8 hp1 hp4 hst2 hw RETRY_TIMES 0 0 STATE_COUNT
    (by simp only [STATE_COUNT]; omega)
    (by intro i hi; simpa using hmiss i hi)
  simpa using h

/-- C4 witness: channel 1, intended state ON, all bus calls succeed, every
readback reads byte 0 (channel never ON): verify-exhausted after exactly 10
attempts. -/
theorem claim_C4_witness :
    chWriteLoop (oracleBus (fun i => some (zeroReadback i)) allWritesOk) 1 ON 0 STATE_COUNT 0
      RETRY_TIMES = (30, WriteOutcome.retryExhausted, 10) :=
  claim_C4 zeroReadback allWritesOk 1 ON (by decide) (by decide) (by decide) (fun _ => rfl)
    (by intro i _; simp [chReadState, zeroReadback, ON, OFF])

/-- C5: the stack-position-to-address transform is injective over [0,8):
distinct stack positions get distinct physical bus addresses, for any base
address. -/
theorem claim_C5 (base p q : Nat) (hp : p < 8) (hq : q < 8) (hne : p ≠ q) :
    stackPositionToAddress base p ≠ stackPositionToAddress base q := by
  intro heq
  apply hne
  have h2 : stackAddrSt p + base = stackAddrSt q + base := by
    have h3 := congrArg (fun x => x ^^^ 0x07) heq
    simpa only [stackPositionToAddress, Nat.xor_assoc, Nat.xor_self, Nat.xor_zero] using h3
  exact stackAddrSt_inj p hp q hq (by omega)

/-- C5 witness: stack positions 0 and 1 map to distinct addresses for the
actual base address. -/
theorem claim_C5_witness :
    stackPositionToAddress RELAY8_HW_I2C_BASE_ADD 0 ≠ stackPositionToAddress RELAY8_HW_I2C_BASE_ADD 1 :=
  claim_C5 RELAY8_HW_I2C_BASE_ADD 0 1 (by decide) (by decide) (by decide)

/-- C6: for every 4-bit logical mask m, converting to the physical relay
mask and back is the identity. -/
theorem claim_C6 : ∀ m, m < 16 → IOToRelay ( relayToIO m) = m := by decide

/-- C6 witness: round-trip at m = 13. -/
theorem claim_C6_witness : IOToRelay ( relayToIO 13) = 13 := claim_C6 13 (by decide)

/-- C7: single-channel relay writes are read-modify-write isolated on the
healthy hardware bus: for every register state and channel c in [1,4],
setting c ON succeeds, a following per-channel read reports ON, and every
other channel's logical bit reported by the whole-register read (getAll) is
unchanged.  Also the claim's concrete example: from all-off, set channel 2
ON gives getAll = 0b0010, then set channel 4 ON gives getAll = 0b1010. -/
theorem claim_C7 :
    (∀ (s : HwState) (c j : Nat), 1 ≤ c → c ≤ 4 → 1 ≤ j → j ≤ 4 → j ≠ c →
      (relayChSet hwBus s c ON).1 = OK ∧
      (relayChGet hwBus (relayChSet hwBus s c ON).2.1 c).2.2 = some ON ∧
      ((relayGet hwBus (relayChSet hwBus s c ON).2.1).2.2.getD 0).testBit (j - 1)
        = ((relayGet hwBus s).2.2.getD 0).testBit (j - 1)) ∧
    (relayGet hwBus (relayChSet hwBus ⟨0x0f, 0, 0⟩ 2 ON).2.1).2.2 = some 2 ∧
    (relayGet hwBus (relayChSet hwBus (relayChSet hwBus ⟨0x0f, 0, 0⟩ 2 ON).2.1 4 ON).2.1).2.2
      = some 10 := by
  refine ⟨?_, by decide, by decide⟩
  intro s c j hc1 hc4 hj1 hj4 hne
  have hset := relayChSet_hwBus_on s c hc1 hc4
  have hb256 : ((s.outReg &&& 0xf0) ||| (s.inLines &&& 0x0f)) < 256 := read_byte_lt _ _
  have hbytes := c7_bytes _ hb256 (c - 1) (by omega) (j - 1) (by omega)
  have hlow := low_nibble_of_read s.outReg s.inLines
  rw [hlow] at hbytes
  rw [hset]
  refine ⟨rfl, ?_, ?_⟩
  · rw [relayChGet_hwBus _ c hc1 hc4]
    rw [if_pos hbytes.1]
  · rw [relayGet_hwBus, relayGet_hwBus]
    simp only [Option.getD_some]
    exact hbytes.2 (by omega)

/-- C7 witness: from register state outReg = 0x30 (channels 2 and 3 ON),
setting channel 1 ON succeeds, reads back ON, and channel 3's bit is
unchanged. -/
theorem claim_C7_witness :
    (relayChSet hwBus ⟨0x0f, 0x30, 0x05⟩ 1 ON).1 = OK ∧
    (relayChGet hwBus (relayChSet hwBus ⟨0x0f, 0x30, 0x05⟩ 1 ON).2.1 1).2.2 = some ON ∧
    ((relayGet hwBus (relayChSet hwBus ⟨0x0f, 0x30, 0x05⟩ 1 ON).2.1).2.2.getD 0).testBit (3 - 1)
      = ((relayGet hwBus ⟨0x0f, 0x30, 0x05⟩).2.2.getD 0).testBit (3 - 1) :=
  claim_C7.1 ⟨0x0f, 0x30, 0x05⟩ 1 3 (by decide) (by decide) (by decide) (by decide) (by decide)

/-- C8: the input read path is active-low: for every register byte b and
input channel c in [1,4], the logical input bit for c is set exactly when
the physical bit `inMaskRemap[c-1]` of b is clear; and the physical byte
0b11110111 yields logical input mask 0b0001. -/
theorem claim_C8 :
    (∀ b, b < 256 → ∀ c, 1 ≤ c → c ≤ 4 →
      ((IOToIn b &&& (1 <<< (c - 1)) ≠ 0) ↔ b &&& inMaskRemap.getD (c - 1) 0 = 0)) ∧
    IOToIn 0xF7 = 0x01 := by
  refine ⟨?_, by decide⟩
  have h : ∀ b, b < 256 → ∀ i, i < 4 →
      ((IOToIn b &&& (1 <<< i) ≠ 0) ↔ b &&& inMaskRemap.getD i 0 = 0) := by decide
  intro b hb c h1 h4
  exact h b hb (c - 1) (by omega)

/-- C8 witness: the equivalence at byte 0xF7, channel 1. -/
theorem claim_C8_witness :
    (IOToIn 0xF7 &&& (1 <<< (1 - 1)) ≠ 0) ↔ 0xF7 &&& inMaskRemap.getD (1 - 1) 0 = 0 :=
  claim_C8.1 0xF7 (by decide) 1 (by decide) (by decide)

/-- C9: when board init reads the direction-configuration register and it
already holds the initialized sentinel 0x0f, it issues zero register writes
and returns the opened handle — for every bus, setup oracle and valid stack
position. -/
theorem claim_C9 {σ : Type} (bus : I2c σ) (setup : Nat → Int) (s s1 : σ) (stack : Int)
    (h0 : 0 ≤ stack) (h7 : stack ≤ 7)
    (hsetup : setup (stackPositionToAddress RELAY8_HW_I2C_BASE_ADD stack.toNat) ≠ -1)
    (hread : bus.readReg s RELAY8_CFG_REG_ADD = (some 0x0f, s1)) :
    doBoardInit bus setup s stack
      = (setup (stackPositionToAddress RELAY8_HW_I2C_BASE_ADD stack.toNat), s1, []) := by
  rw [doBoardInit, if_neg (by omega)]
  simp [hread, hsetup]

/-- C9 witness: opening stack 0 on hardware whose configuration register
already reads 0x0f returns the handle with an empty write list. -/
theorem claim_C9_witness :
    doBoardInit hwBus (fun _ => 1) (⟨0x0f, 0x50, 0⟩ : HwState) 0 = (1, ⟨0x0f, 0x50, 0⟩, []) :=
  claim_C9 hwBus (fun _ => 1) ⟨0x0f, 0x50, 0⟩ ⟨0x0f, 0x50, 0⟩ 0 (by decide) (by decide)
    (by decide) (by decide)

/-- C10: for every valid channel and every state value that is neither ON
nor OFF, relayChSet returns ERROR and issues no register write, leaving the
register state unchanged (first conjunct, on the hardware bus), while the
input-port register read is still performed first (second conjunct: on the
counting oracle bus exactly one bus operation, the read, happens). -/
theorem claim_C10 :
    (∀ (s : HwState) (c st8 : Nat), 1 ≤ c → c ≤ 4 → st8 ≠ OFF → st8 ≠ ON →
      relayChSet hwBus s c st8 = (ERROR, s, [])) ∧
    (∀ (rd : Nat → Option Nat) (wr : Nat → Bool) (k c st8 b : Nat),
      1 ≤ c → c ≤ 4 → st8 ≠ OFF → st8 ≠ ON → rd k = some b →
      relayChSet (oracleBus rd wr) k c st8 = (ERROR, k + 1, [])) := by
  constructor
  · intro s c st8 h1 h4 hoff hon
    rw [relayChSet, if_neg (by simp [CHANNEL_NR_MIN, RELAY_CH_NR_MAX]; omega)]
    simp [hwBus, hoff, hon]
  · intro rd wr k c st8 b h1 h4 hoff hon hrd
    rw [relayChSet, if_neg (by simp [CHANNEL_NR_MIN, RELAY_CH_NR_MAX]; omega)]
    simp [oracleBus, hrd, hoff, hon]

/-- C10 witness: channel 3 with the STATE_COUNT sentinel as state: ERROR,
no write, state untouched. -/
theorem claim_C10_witness :
    relayChSet hwBus ⟨0x0f, 0x40, 0⟩ 3 STATE_COUNT = (ERROR, ⟨0x0f, 0x40, 0⟩, []) :=
  claim_C10.1 ⟨0x0f, 0x40, 0⟩ 3 STATE_COUNT (by decide) (by decide) (by decide) (by decide)
